import Mathlib

/-!
Shallow embedding of the todo-app core: the synchronous publish-subscribe
`EventEmitter`, the REST entity layer (`TaskModel` / `RestTaskModel`), the
URL-building helpers of `RestClient`, its response classification, and the
per-task view/edit component (`TaskComponent`).  JavaScript object state is
passed explicitly; host builtins (`Date`, `JSON.parse`) are modelled by
symbolic constructors.  Theorems checking the specification's claims
against this embedding follow the definitions.
-/

/-! ## EventEmitter -/

/-- A subscriber entry as stored by `EventEmitter.on`:
`this._subscribers.push({id, event, callback})`.  A callback function is
identified by an opaque numeric token. -/
structure Subscription where
  id : Nat
  event : String
  callback : Nat
deriving DecidableEq, Repr

/-- The state of an `EventEmitter`: the `_subscribers` array and the
private sequencer `_seq` (the next value `sequencer()` will return;
the first call returns 1). -/
structure EmitterState where
  subscribers : List Subscription
  seq : Nat
deriving DecidableEq, Repr

/-- A freshly constructed emitter: empty subscriber array, sequencer at 1. -/
def EmitterState.init : EmitterState := ⟨[], 1⟩

/-- `EventEmitter.on(event, callback)`: draws a fresh id from the
sequencer and pushes `{id, event, callback}` onto `_subscribers`.
Returns the new state together with the assigned id. -/
def EventEmitter.on (st : EmitterState) (event : String) (callback : Nat) :
    EmitterState × Nat :=
  (⟨st.subscribers ++ [⟨st.seq, event, callback⟩], st.seq + 1⟩, st.seq)

/-- `EventEmitter._unsubscribe(anId)`: `findIndex(s => s.id === anId)`
followed by `splice(j, 1)` removes the first subscription whose id is
strictly equal to `anId`, and does nothing when there is none.  The
argument may be `undefined` (modelled as `none`); a strict comparison
between a numeric id and `undefined` is always false. -/
def EventEmitter.unsubscribe (st : EmitterState) (anId : Option Nat) : EmitterState :=
  { st with
    subscribers := st.subscribers.eraseP (fun s =>
      match anId with
      | some m => s.id == m
      | none => false) }

/-- `EventEmitter.on` also returns a handle
`{unsubscribe: this._unsubscribe.bind(this)}`.  `bind(this)` binds the
receiver only — no id argument is bound — so a later `handle.unsubscribe()`
call reaches `_unsubscribe` with `anId = undefined`.  The handle is
therefore modelled by the argument value it will pass: `none`. -/
def EventEmitter.onWithHandle (st : EmitterState) (event : String) (callback : Nat) :
    EmitterState × Option Nat :=
  ((EventEmitter.on st event callback).1, none)

/-- `EventEmitter.emit(event, data)`: filters `_subscribers` by exact
event-name equality and invokes each matching callback with `data`, in
array order.  The result lists the performed invocations
`(callback, data)` in order. -/
def EventEmitter.emitTrace {α : Type} (st : EmitterState) (event : String) (data : α) :
    List (Nat × α) :=
  (st.subscribers.filter (fun s => s.event == event)).map (fun s => (s.callback, data))

/-- One external call against an emitter: `on(event, callback)` or
`_unsubscribe(anId)` with a numeric id. -/
inductive EmitterOp where
  | subscribe (event : String) (callback : Nat)
  | unsub (anId : Nat)
deriving DecidableEq, Repr

/-- Whether an operation is an `_unsubscribe` call naming id `n`. -/
def EmitterOp.isUnsubOf (n : Nat) : EmitterOp → Bool
  | .unsub m => m == n
  | _ => false

/-- Effect of one operation on the emitter state. -/
def EmitterState.step (st : EmitterState) : EmitterOp → EmitterState
  | .subscribe e cb => (EventEmitter.on st e cb).1
  | .unsub n => EventEmitter.unsubscribe st (some n)

/-- Runs a sequence of `on` / `_unsubscribe` calls on a fresh emitter. -/
def EmitterState.run (ops : List EmitterOp) : EmitterState :=
  ops.foldl EmitterState.step EmitterState.init

/-- Number of `on` calls in a sequence of operations. -/
def countOn : List EmitterOp → Nat
  | [] => 0
  | .subscribe _ _ :: rest => countOn rest + 1
  | .unsub _ :: rest => countOn rest

/-- Written from the specification's words, independently of the emitter's
state machine: with `n` the next fresh id, each `on` call receives the
successive ids `n`, `n+1`, …, and a subscription is currently registered
iff no later `_unsubscribe` call names its id.  Registered subscriptions
are listed in the order they were added. -/
def specSubscribers : List EmitterOp → Nat → List Subscription
  | [], _ => []
  | .subscribe e cb :: rest, n =>
    if rest.any (EmitterOp.isUnsubOf n) then specSubscribers rest (n + 1)
    else ⟨n, e, cb⟩ :: specSubscribers rest (n + 1)
  | .unsub _ :: rest, n => specSubscribers rest n

/-! ## JavaScript string helpers and URL building -/

/-- JavaScript whitespace as consumed by `trim` / `trimLeft` / `trimRight`
(the ASCII part; the claims only exercise plain spaces). -/
def isJsSpace (c : Char) : Bool :=
  c == ' ' || c == '\t' || c == '\n' || c == '\r' || c == '\x0b' || c == '\x0c'

/-- `str.trimLeft()` on the character list of a string. -/
def trimLeftL (l : List Char) : List Char := l.dropWhile isJsSpace

/-- `str.trimRight()` on the character list of a string. -/
def trimRightL (l : List Char) : List Char := l.rdropWhile isJsSpace

/-- `str.trim()`: both ends trimmed. -/
def jsTrimL (l : List Char) : List Char := trimLeftL (trimRightL l)

/-- `str.trim()` at the `String` level. -/
def jsTrim (s : String) : String := ⟨jsTrimL s.data⟩

/-- `endRemoveAndTrim(str, char)`: `trimRight`, then while the last
character equals `char` drop it and `trimRight` again.  The loop's net
effect is to remove the maximal trailing run of whitespace and `char`
characters: every character it removes is whitespace or `char`, and it
stops exactly when the last character is neither. -/
def endRemoveAndTrim (l : List Char) (c : Char) : List Char :=
  l.rdropWhile (fun x => isJsSpace x || x == c)

/-- `startRemoveAndTrim(str, char)`: `trimLeft`, then while the first
character equals `char` drop it and `trimLeft` again; the net effect
removes the maximal leading run of whitespace and `char` characters. -/
def startRemoveAndTrim (l : List Char) (c : Char) : List Char :=
  l.dropWhile (fun x => isJsSpace x || x == c)

/-- `mkUrl(baseUrl, path)` without query parameters (no claim exercises
the `queryParams` branch, which only appends a query string):
`[endRemoveAndTrim((baseUrl || '').trim(), '/'),
  startRemoveAndTrim(path.trim(), '/')].join('/')`. -/
def mkUrl (baseUrl path : String) : String :=
  ⟨endRemoveAndTrim (jsTrimL baseUrl.data) '/' ++ '/' :: startRemoveAndTrim (jsTrimL path.data) '/'⟩

/-- Uppercase hexadecimal digit. -/
def hexDigit (n : Nat) : Char :=
  if n < 10 then Char.ofNat (48 + n) else Char.ofNat (55 + n)

/-- Bytes `encodeURIComponent` leaves unescaped:
`A-Z a-z 0-9 - _ . ! ~ * ' ( )`. -/
def isUriUnreservedByte (b : UInt8) : Bool :=
  (65 ≤ b && b ≤ 90) || (97 ≤ b && b ≤ 122) || (48 ≤ b && b ≤ 57) ||
  b == 45 || b == 95 || b == 46 || b == 33 || b == 126 || b == 42 ||
  b == 39 || b == 40 || b == 41

/-- `encodeURIComponent(s)`: unreserved bytes pass through, every other
UTF-8 byte becomes `%XX` with uppercase hex digits. -/
def encodeURIComponent (s : String) : String :=
  String.join (s.toUTF8.toList.map (fun b =>
    if isUriUnreservedByte b then String.singleton (Char.ofNat b.toNat)
    else "%" ++ ⟨[hexDigit (b.toNat / 16), hexDigit (b.toNat % 16)]⟩))

/-! ## JSON values and serialization -/

/-- JavaScript values as they appear in the app's request/response bodies.
`undefinedVal` is the JavaScript `undefined`; `date ms` is a `Date` object (it
serializes to its ISO string); `parsedMs raw` is the number returned by
`Date.parse(raw)` (kept symbolic — no claim inspects its numeric value). -/
inductive Json where
  | null
  | undefinedVal
  | bool (b : Bool)
  | num (n : Int)
  | str (s : String)
  | date (ms : Nat)
  | parsedMs (raw : String)
  | obj (fields : List (String × Json))

/-- The ISO rendering of a `Date`, kept symbolic as the decimal print of
its epoch milliseconds; no claim depends on its exact characters. -/
def Json.isoOf (ms : Nat) : String := Nat.repr ms

/-- How `JSON.stringify` treats one field of a (flat) object: fields whose
value is `undefined` are omitted; a `Date` contributes its ISO string. -/
def Json.wireField : String × Json → Option (String × Json)
  | (_, .undefinedVal) => none
  | (k, .date ms) => some (k, .str (Json.isoOf ms))
  | (k, v) => some (k, v)

/-- The value `JSON.stringify` actually serializes, for the flat values
this app sends: `undefined` disappears (`none`), `Date`s become their ISO
strings, and object fields holding `undefined` are dropped. -/
def Json.toWire : Json → Option Json
  | .undefinedVal => none
  | .date ms => some (.str (Json.isoOf ms))
  | .obj fields => some (.obj (fields.filterMap Json.wireField))
  | j => some j

/-- Field lookup in a JSON object (first match), `none` otherwise. -/
def Json.lookupField (j : Json) (key : String) : Option Json :=
  match j with
  | .obj fields => (fields.find? (fun kv => kv.1 == key)).map (fun kv => kv.2)
  | _ => none

/-! ## RestClient response classification -/

/-- A completed XMLHttpRequest (`readyState === DONE`): status code, the
`Content-type` response header (`getResponseHeader` returns `null` —
`none` — when the header is absent), and the raw response text. -/
structure HttpResponse where
  status : Nat
  contentType : Option String
  responseText : String
deriving DecidableEq, Repr

/-- The body attached to a rejection: `e.json = JSON.parse(responseText)`
(the raw text is kept; `JSON.parse` is modelled as a total symbolic
operation) or `e.response = responseText`. -/
inductive ErrBody where
  | json (raw : String)
  | response (raw : String)
deriving DecidableEq, Repr

/-- How the promise of `RestClient._send` settles: `resolved raw` stands
for `resolve(JSON.parse(raw))`; `rejected msg status body` stands for
`reject(e)` with `e.message = msg`, `e.status = status` and the json or
response field of `body`. -/
inductive Settlement where
  | resolved (raw : String)
  | rejected (message : String) (status : Nat) (body : ErrBody)
deriving DecidableEq, Repr

/-- `hdr.substr(0, n)`. -/
def jsSubstrTo (s : String) (n : Nat) : String := ⟨s.data.take n⟩

/-! ### JSON.parse acceptance (ECMA-404 grammar) -/

/-- JSON whitespace: space, tab, line feed, carriage return. -/
def jsonWs (l : List Char) : List Char :=
  l.dropWhile (fun c => c == ' ' || c == '\t' || c == '\n' || c == '\r')

/-- A JSON decimal digit. -/
def isJsonDigit (c : Char) : Bool := 48 ≤ c.toNat && c.toNat ≤ 57

/-- A JSON hexadecimal digit. -/
def isJsonHex (c : Char) : Bool :=
  isJsonDigit c || (65 ≤ c.toNat && c.toNat ≤ 70) || (97 ≤ c.toNat && c.toNat ≤ 102)

/-- Consumes the remainder of a JSON string literal (the opening quote
already read): unescaped characters above `0x1F` except `"` and `\`,
or the escapes `\" \\ \/ \b \f \n \r \t \uXXXX`. -/
def parseStringRest : Nat → List Char → Option (List Char)
  | 0, _ => none
  | _ + 1, [] => none
  | fuel + 1, c :: rest =>
    if c == '"' then some rest
    else if c == '\\' then
      match rest with
      | [] => none
      | e :: rest2 =>
        if e == '"' || e == '\\' || e == '/' || e == 'b' || e == 'f' || e == 'n'
            || e == 'r' || e == 't' then
          parseStringRest fuel rest2
        else if e == 'u' then
          match rest2 with
          | h1 :: h2 :: h3 :: h4 :: rest3 =>
            if isJsonHex h1 && isJsonHex h2 && isJsonHex h3 && isJsonHex h4 then
              parseStringRest fuel rest3
            else none
          | _ => none
        else none
    else if c.toNat < 32 then none
    else parseStringRest fuel rest

/-- Consumes an expected literal keyword character by character. -/
def parseKeyword : List Char → List Char → Option (List Char)
  | [], l => some l
  | k :: ks, c :: rest => if c == k then parseKeyword ks rest else none
  | _ :: _, [] => none

/-- Optional fraction part: `.` followed by one or more digits. -/
def parseFrac (l : List Char) : Option (List Char) :=
  match l with
  | '.' :: rest =>
    if (rest.takeWhile isJsonDigit).isEmpty then none
    else some (rest.dropWhile isJsonDigit)
  | _ => some l

/-- Optional exponent part: `e`/`E`, optional sign, one or more digits. -/
def parseExp (l : List Char) : Option (List Char) :=
  match l with
  | c :: rest =>
    if c == 'e' || c == 'E' then
      let rest2 := match rest with
        | s :: r2 => if s == '+' || s == '-' then r2 else rest
        | [] => rest
      if (rest2.takeWhile isJsonDigit).isEmpty then none
      else some (rest2.dropWhile isJsonDigit)
    else some (c :: rest)
  | [] => some []

/-- Fraction then exponent, both optional. -/
def parseFracExp (l : List Char) : Option (List Char) :=
  match parseFrac l with
  | some l2 => parseExp l2
  | none => none

/-- A JSON number: optional minus, `0` or a nonzero-led digit run, then
optional fraction and exponent. -/
def parseNumberBody (l : List Char) : Option (List Char) :=
  let l1 := match l with
    | c :: rest => if c == '-' then rest else l
    | [] => l
  match l1 with
  | [] => none
  | c :: rest =>
    if c == '0' then parseFracExp rest
    else if isJsonDigit c then parseFracExp (rest.dropWhile isJsonDigit)
    else none

mutual

/-- One JSON value: object, array, string, number, `true`, `false` or
`null`.  Recursive descent bounded by a fuel counter (each unit of fuel
is spent only after at least one input character was consumed by the
caller, so the generous budget in `jsonParses` can never run out on an
input the grammar accepts). -/
def parseValue : Nat → List Char → Option (List Char)
  | 0, _ => none
  | fuel + 1, l =>
    match l with
    | [] => none
    | c :: rest =>
      if c == '"' then parseStringRest (rest.length + 1) rest
      else if c == '{' then parseMembersFirst fuel (jsonWs rest)
      else if c == '[' then parseElementsFirst fuel (jsonWs rest)
      else if c == 't' then parseKeyword ['r', 'u', 'e'] rest
      else if c == 'f' then parseKeyword ['a', 'l', 's', 'e'] rest
      else if c == 'n' then parseKeyword ['u', 'l', 'l'] rest
      else if c == '-' || isJsonDigit c then parseNumberBody l
      else none

/-- Array contents after `[` and whitespace: `]` or a first element. -/
def parseElementsFirst : Nat → List Char → Option (List Char)
  | 0, _ => none
  | fuel + 1, l =>
    match l with
    | ']' :: rest => some rest
    | _ =>
      match parseValue fuel l with
      | some l2 => parseElementsMore fuel (jsonWs l2)
      | none => none

/-- Array contents after an element: `]` or `,` and another element. -/
def parseElementsMore : Nat → List Char → Option (List Char)
  | 0, _ => none
  | fuel + 1, l =>
    match l with
    | ']' :: rest => some rest
    | ',' :: rest =>
      match parseValue fuel (jsonWs rest) with
      | some l2 => parseElementsMore fuel (jsonWs l2)
      | none => none
    | _ => none

/-- Object contents after `{` and whitespace: `}` or a first member. -/
def parseMembersFirst : Nat → List Char → Option (List Char)
  | 0, _ => none
  | fuel + 1, l =>
    match l with
    | '}' :: rest => some rest
    | _ => parseMember fuel l

/-- One object member: a string key, whitespace, `:`, a value, then `}`
or `,` and another member. -/
def parseMember : Nat → List Char → Option (List Char)
  | 0, _ => none
  | fuel + 1, l =>
    match l with
    | '"' :: rest =>
      match parseStringRest (rest.length + 1) rest with
      | some l2 =>
        match jsonWs l2 with
        | ':' :: l3 =>
          match parseValue fuel (jsonWs l3) with
          | some l4 => parseMembersMore fuel (jsonWs l4)
          | none => none
        | _ => none
      | none => none
    | _ => none

/-- Object contents after a member: `}` or `,` and another member. -/
def parseMembersMore : Nat → List Char → Option (List Char)
  | 0, _ => none
  | fuel + 1, l =>
    match l with
    | '}' :: rest => some rest
    | ',' :: rest => parseMember fuel (jsonWs rest)
    | _ => none

end

/-- Whether `JSON.parse(s)` succeeds: `s` is a complete JSON text — one
value surrounded by whitespace, with the whole input consumed.  This
models the acceptance of the host `JSON.parse` (which throws a
`SyntaxError` otherwise, e.g. on an empty body); the parsed value itself
stays symbolic. -/
def jsonParses (s : String) : Bool :=
  match parseValue (2 * s.data.length + 2) (jsonWs s.data) with
  | some rest => (jsonWs rest).isEmpty
  | none => false

/-- `handleJsonResponse(req, resolve, reject)` on a completed response.
`none` means the handler threw before `resolve` or `reject` could run,
so the promise is never settled: on a 200/201 response with no
`Content-type` header, `hdr.substr` is called on `null` and raises a
`TypeError`; and in the two branches that call
`JSON.parse(req.responseText)` — `resolve(JSON.parse(...))` on 200/201
with a JSON-prefixed content type, and `e.json = JSON.parse(...)` on
other statuses with a content type exactly JSON — an unparseable body
raises a `SyntaxError`. -/
def handleJsonResponse (r : HttpResponse) : Option Settlement :=
  if r.status == 200 || r.status == 201 then
    match r.contentType with
    | none => none
    | some hdr =>
      if jsSubstrTo hdr 16 == "application/json" || jsSubstrTo hdr 9 == "text/json" then
        if jsonParses r.responseText then some (.resolved r.responseText)
        else none
      else
        some (.rejected "Not a JSON response" r.status (.response r.responseText))
  else
    if (match r.contentType with
        | some hdr => hdr == "application/json" || hdr == "text/json"
        | none => false) then
      if jsonParses r.responseText then
        some (.rejected "Operation failed" r.status (.json r.responseText))
      else none
    else
      some (.rejected "Operation failed" r.status (.response r.responseText))

/-- Written from the amended claim's words: what a completed response
carrying a `Content-type` header produces — 200/201 with a
JSON-compatible (prefix-matched) content type resolves with the parsed
body when `JSON.parse` accepts it and never settles otherwise; 200/201
with a non-JSON content type rejects with "Not a JSON response", status
and raw text; any other status with a content type exactly JSON rejects
with the status and the parsed body when it parses and never settles
otherwise, and rejects with the status and the raw text for any other
content type. -/
def settlementSpec (status : Nat) (hdr : String) (text : String) : Option Settlement :=
  if status = 200 ∨ status = 201 then
    if jsSubstrTo hdr 16 == "application/json" || jsSubstrTo hdr 9 == "text/json" then
      if jsonParses text then some (.resolved text) else none
    else some (.rejected "Not a JSON response" status (.response text))
  else if hdr = "application/json" ∨ hdr = "text/json" then
    if jsonParses text then some (.rejected "Operation failed" status (.json text))
    else none
  else some (.rejected "Operation failed" status (.response text))

/-! ## Requests and the task entity layer -/

/-- HTTP method of a request issued through `RestClient`. -/
inductive HttpMethod where
  | GET
  | POST
  | PUT
  | DELETE
deriving DecidableEq, Repr

/-- One request as handed to `RestClient._send`: method, the path passed
by the caller (the client later joins it with its base URL via `mkUrl`),
and the optional body object. -/
structure Request where
  method : HttpMethod
  path : String
  body : Option Json

/-- The body `RestClient._send` actually serializes with
`JSON.stringify`. -/
def serializedBody (r : Request) : Option Json := r.body.bind Json.toWire

/-- The error a rejected remote call propagates (status plus message;
the body fields play no role in the entity layer). -/
structure RestError where
  status : Nat
  message : String
deriving DecidableEq, Repr

/-- The task entity (`TaskModel` fields reachable through
`RestTaskModel`): `_id` is `undefined` (`none`) for a never-persisted
task, `_description` a string, `_timestamp` the JavaScript value held by
the field (a `Date` at construction, a `Date.parse` number after a
successful `create`). -/
structure TaskEntity where
  id : Option Nat
  description : String
  timestamp : Json

/-- `new TaskModel(id, description)` at clock instant `now`:
`this._timestamp = new Date()`. -/
def TaskModel.new (id : Option Nat) (description : String) (now : Nat) : TaskEntity :=
  { id := id, description := description, timestamp := .date now }

/-- The JavaScript value of `this.id` as a JSON field: a number, or
`undefined` for a never-persisted task. -/
def TaskEntity.idJs (t : TaskEntity) : Json :=
  match t.id with
  | some n => .num n
  | none => .undefinedVal

/-- String interpolation of `this.id` (`template literals stringify
`undefined` as "undefined"`). -/
def TaskEntity.idString (t : TaskEntity) : String :=
  match t.id with
  | some n => Nat.repr n
  | none => "undefined"

/-- `RestTaskModel.toDto()`:
`{id: this.id, description: this.description, timestamp: this.timestamp}`. -/
def RestTaskModel.toDto (t : TaskEntity) : Json :=
  .obj [("id", t.idJs), ("description", .str t.description), ("timestamp", t.timestamp)]

/-- The request issued by `create()`: `this._client.post('task', dto)`
with `dto = this.toDto()`. -/
def RestTaskModel.createRequest (t : TaskEntity) : Request :=
  { method := .POST, path := "task", body := some (RestTaskModel.toDto t) }

/-- The fields of the parsed creation response that `create()` reads:
`dto.id` (absent/undefined modelled as `none`) and `dto.timestamp` (the
string fed to `Date.parse`). -/
structure CreateResponse where
  id : Option Nat
  timestamp : String
deriving DecidableEq, Repr

/-- `RestTaskModel.create()`: posts the dto; on success overwrites
`this.id` with `dto.id` and `this.timestamp` with
`Date.parse(dto.timestamp)`; a rejection propagates before any field is
written, so the entity is unchanged.  Returns the post-call entity state
and the outcome. -/
def RestTaskModel.create (store : Request → Except RestError CreateResponse) (t : TaskEntity) :
    TaskEntity × Except RestError Unit :=
  match store (RestTaskModel.createRequest t) with
  | .error e => (t, .error e)
  | .ok dto => ({ t with id := dto.id, timestamp := .parsedMs dto.timestamp }, .ok ())

/-- The request issued by `update(newDesc)`:
`this._client.put('task/' + encodeURIComponent(this.id), {description: newDesc})`. -/
def RestTaskModel.updateRequest (t : TaskEntity) (newDesc : String) : Request :=
  { method := .PUT
    path := "task/" ++ encodeURIComponent t.idString
    body := some (.obj [("description", .str newDesc)]) }

/-- `RestTaskModel.update(newDesc)`: puts `{description: newDesc}` to the
path addressed by the id; only on success does `this.description` change;
a rejection propagates before the assignment, leaving the entity
untouched. -/
def RestTaskModel.update (store : Request → Except RestError Json) (t : TaskEntity)
    (newDesc : String) : TaskEntity × Except RestError Unit :=
  match store (RestTaskModel.updateRequest t newDesc) with
  | .error e => (t, .error e)
  | .ok _ => ({ t with description := newDesc }, .ok ())

/-- The request issued by `delete()`. -/
def RestTaskModel.deleteRequest (t : TaskEntity) : Request :=
  { method := .DELETE, path := "task/" ++ encodeURIComponent t.idString, body := none }

/-- `RestTaskModel.delete()`: issues the DELETE and returns `this`; no
entity field is written in either outcome. -/
def RestTaskModel.delete (store : Request → Except RestError Json) (t : TaskEntity) :
    TaskEntity × Except RestError Unit :=
  match store (RestTaskModel.deleteRequest t) with
  | .error e => (t, .error e)
  | .ok _ => (t, .ok ())

/-! ## TaskComponent -/

/-- The `_edit` panel of a `TaskComponent` once created: whether it
carries the `hidden` class, and the value of its text input. -/
structure EditPanel where
  hidden : Bool
  inputValue : String
deriving DecidableEq, Repr

/-- The state of a `TaskComponent` after `init()`: its entity, the
rendered label text, the `_edit` panel (`null` until `edit()` first
runs), whether the normal view affordances (`.task-left` / `.task-right`)
carry the `hidden` class, and the component's own emitter state
(`TaskComponent extends EventEmitter`). -/
structure TaskComponent where
  model : TaskEntity
  label : String
  editPanel : Option EditPanel
  viewHidden : Bool
  emitter : EmitterState

/-- A freshly constructed and rendered component: `_edit = null`, the
label shows the entity's description, the view affordances are visible. -/
def TaskComponent.init (t : TaskEntity) : TaskComponent :=
  { model := t, label := t.description, editPanel := none, viewHidden := false
    emitter := EmitterState.init }

/-- `edit()`: reveals (or creates) the edit panel, pre-fills its input
with the entity's current description, and hides the view affordances. -/
def TaskComponent.edit (c : TaskComponent) : TaskComponent :=
  { c with editPanel := some ⟨false, c.model.description⟩, viewHidden := true }

/-- `_hideEditField()`: adds `hidden` to the edit panel when present and
reveals the view affordances. -/
def TaskComponent.hideEditField (c : TaskComponent) : TaskComponent :=
  { c with editPanel := c.editPanel.map (fun p => { p with hidden := true })
         , viewHidden := false }

/-- `_update()`: refreshes the label from the entity's description. -/
def TaskComponent.updateLabel (c : TaskComponent) : TaskComponent :=
  { c with label := c.model.description }

/-- `save()`: a no-op when `_edit` is `null`; otherwise trims the input
value, and when non-empty runs `this._model.update(newDesc)` inside
`try`/`catch` (the catch only logs, so a failed update leaves the entity
as `update` left it — untouched); in every non-null-panel case it then
runs `_update()` and `_hideEditField()`.  Also returns the list of
remote requests issued. -/
def TaskComponent.save (store : Request → Except RestError Json) (c : TaskComponent) :
    TaskComponent × List Request :=
  match c.editPanel with
  | none => (c, [])
  | some panel =>
    let newDesc := jsTrim panel.inputValue
    if newDesc = "" then
      (TaskComponent.hideEditField (TaskComponent.updateLabel c), [])
    else
      let m := (RestTaskModel.update store c.model newDesc).1
      (TaskComponent.hideEditField (TaskComponent.updateLabel { c with model := m })
        , [RestTaskModel.updateRequest c.model newDesc])

/-- `cancel()`: just `_hideEditField()`. -/
def TaskComponent.cancel (c : TaskComponent) : TaskComponent :=
  TaskComponent.hideEditField c

/-- `complete()`: `this.emit('completed', this._model)` — the component
itself is unchanged; the emitted invocations are returned. -/
def TaskComponent.complete (c : TaskComponent) : TaskComponent × List (Nat × TaskEntity) :=
  (c, EventEmitter.emitTrace c.emitter "completed" c.model)

/-- The component is in the Viewing state: no visible edit panel and the
view affordances are not hidden (spec section 4.6). -/
def TaskComponent.isViewing (c : TaskComponent) : Bool :=
  (match c.editPanel with
   | none => true
   | some p => p.hidden) && !c.viewHidden

/-! ## Controller: addTask -/

/-- `addTask(form)`: trims the input value; when empty, nothing happens
(`none`); otherwise constructs `new RestTaskModel(undefined, desc,
client)` at clock instant `now` and awaits `model.create()`. -/
def addTask (store : Request → Except RestError CreateResponse) (inputValue : String)
    (now : Nat) : Option (TaskEntity × Except RestError Unit) :=
  let desc := jsTrim inputValue
  if desc = "" then none
  else some (RestTaskModel.create store (TaskModel.new none desc now))

/-! ## Concrete instances used by witnesses and counterexamples -/

/-- A store whose update/delete endpoint always succeeds with `null`. -/
def storeOkJson : Request → Except RestError Json := fun _ => .ok .null

/-- A store whose update/delete endpoint always fails with a 500. -/
def storeFailJson : Request → Except RestError Json :=
  fun _ => .error ⟨500, "Operation failed"⟩

/-- A creation store answering 201 with `{id: 5, description: "x",
timestamp: "2024-01-01T00:00:00Z"}`. -/
def storeCreate5 : Request → Except RestError CreateResponse :=
  fun _ => .ok ⟨some 5, "2024-01-01T00:00:00Z"⟩

/-- A creation store that always fails with a 500. -/
def storeCreateFail : Request → Except RestError CreateResponse :=
  fun _ => .error ⟨500, "Operation failed"⟩

/-- A persisted sample entity (id 1). -/
def sampleTask : TaskEntity := { id := some 1, description := "a", timestamp := .date 0 }

/-- A never-persisted sample entity. -/
def sampleNewTask : TaskEntity := TaskModel.new none "x" 0

/-- `sampleTask`'s component, after `edit()` with the input replaced by
whitespace. -/
def sampleEditingWs : TaskComponent :=
  { TaskComponent.edit (TaskComponent.init sampleTask) with
      editPanel := some ⟨false, "   "⟩ }

/-! ## Theorems: EventEmitter (C1, C2) -/

theorem countOn_foldl_seq (ops : List EmitterOp) : ∀ st : EmitterState,
    (ops.foldl EmitterState.step st).seq = st.seq + countOn ops := by
  induction ops with
  | nil => intro st; simp [countOn]
  | cons op rest ih =>
    intro st
    cases op with
    | subscribe e cb =>
      simp only [List.foldl_cons, EmitterState.step, EventEmitter.on, ih, countOn]
      omega
    | unsub n =>
      simp only [List.foldl_cons, EmitterState.step, EventEmitter.unsubscribe, ih, countOn]

theorem run_append_step (ops : List EmitterOp) (op : EmitterOp) :
    EmitterState.run (ops ++ [op]) = (EmitterState.run ops).step op := by
  simp [EmitterState.run, List.foldl_append]

theorem run_seq (ops : List EmitterOp) :
    (EmitterState.run ops).seq = 1 + countOn ops :=
  countOn_foldl_seq ops EmitterState.init

theorem specSubscribers_append_sub (e : String) (cb : Nat) (ops : List EmitterOp) :
    ∀ n, specSubscribers (ops ++ [.subscribe e cb]) n
      = specSubscribers ops n ++ [⟨n + countOn ops, e, cb⟩] := by
  induction ops with
  | nil => intro n; simp [specSubscribers, countOn, EmitterOp.isUnsubOf]
  | cons op rest ih =>
    intro n
    cases op with
    | subscribe e' cb' =>
      have harith : n + countOn (.subscribe e' cb' :: rest) = (n + 1) + countOn rest := by
        simp only [countOn]; omega
      rw [List.cons_append]
      cases h : rest.any (EmitterOp.isUnsubOf n) with
      | true =>
        simp [specSubscribers, List.any_append, h, EmitterOp.isUnsubOf, ih, harith]
      | false =>
        simp [specSubscribers, List.any_append, h, EmitterOp.isUnsubOf, ih, harith]
    | unsub m =>
      have harith : n + countOn (.unsub m :: rest) = n + countOn rest := by
        simp only [countOn]
      rw [List.cons_append]
      simp only [specSubscribers, harith]
      exact ih n

theorem specSubscribers_append_unsub (m : Nat) (ops : List EmitterOp) :
    ∀ n, specSubscribers (ops ++ [.unsub m]) n
      = (specSubscribers ops n).filter (fun s => !(s.id == m)) := by
  induction ops with
  | nil => intro n; simp [specSubscribers]
  | cons op rest ih =>
    intro n
    cases op with
    | unsub k =>
      rw [List.cons_append]
      simp only [specSubscribers]
      exact ih n
    | subscribe e cb =>
      rw [List.cons_append]
      cases hr : rest.any (EmitterOp.isUnsubOf n) with
      | true =>
        simp [specSubscribers, List.any_append, hr, ih]
      | false =>
        by_cases hm : m = n
        · subst hm
          simp [specSubscribers, List.any_append, hr, EmitterOp.isUnsubOf, ih]
        · have hm2 : (n == m) = false := by
            simp [Ne.symm hm]
          simp [specSubscribers, List.any_append, hr, EmitterOp.isUnsubOf, ih, hm, hm2,
            Ne.symm hm]

theorem specSubscribers_id_ge (ops : List EmitterOp) :
    ∀ n, ∀ s ∈ specSubscribers ops n, n ≤ s.id := by
  induction ops with
  | nil => intro n s hs; simp [specSubscribers] at hs
  | cons op rest ih =>
    intro n s hs
    cases op with
    | unsub m =>
      simp only [specSubscribers] at hs
      exact ih n s hs
    | subscribe e cb =>
      simp only [specSubscribers] at hs
      cases hr : rest.any (EmitterOp.isUnsubOf n) with
      | true =>
        rw [if_pos hr] at hs
        have := ih (n + 1) s hs
        omega
      | false =>
        rw [if_neg (by simp [hr])] at hs
        rcases List.mem_cons.mp hs with rfl | hmem
        · simp
        · have := ih (n + 1) s hmem
          omega

theorem specSubscribers_sorted (ops : List EmitterOp) :
    ∀ n, (specSubscribers ops n).Pairwise (fun a b => a.id < b.id) := by
  induction ops with
  | nil => intro n; simp [specSubscribers]
  | cons op rest ih =>
    intro n
    cases op with
    | unsub m => simpa only [specSubscribers] using ih n
    | subscribe e cb =>
      simp only [specSubscribers]
      cases hr : rest.any (EmitterOp.isUnsubOf n) with
      | true => simpa using ih (n + 1)
      | false =>
        simp only [Bool.false_eq_true, if_false]
        refine List.Pairwise.cons (fun s hs => ?_) (ih (n + 1))
        have := specSubscribers_id_ge rest (n + 1) s hs
        show n < s.id
        omega

theorem eraseP_eq_filter_of_sorted (m : Nat) :
    ∀ l : List Subscription, l.Pairwise (fun a b => a.id < b.id) →
      l.eraseP (fun s => s.id == m) = l.filter (fun s => !(s.id == m)) := by
  intro l
  induction l with
  | nil => intro _; rfl
  | cons a t ih =>
    intro hp
    rw [List.pairwise_cons] at hp
    rw [List.eraseP_cons, List.filter_cons]
    cases h : (a.id == m) with
    | true =>
      have ham : a.id = m := by simpa using h
      simp only [h, cond_true, Bool.not_true, Bool.false_eq_true, if_false]
      symm
      rw [List.filter_eq_self]
      intro b hb
      have hlt := hp.1 b hb
      have hne : b.id ≠ m := by omega
      simpa using hne
    | false =>
      simp only [h, cond_false, Bool.not_false, if_true]
      rw [ih hp.2]

theorem run_subscribers_eq_spec (ops : List EmitterOp) :
    (EmitterState.run ops).subscribers = specSubscribers ops 1 := by
  induction ops using List.reverseRecOn with
  | nil => rfl
  | append_singleton ops op ih =>
    rw [run_append_step]
    cases op with
    | subscribe e cb =>
      rw [specSubscribers_append_sub]
      simp only [EmitterState.step, EventEmitter.on, ih, run_seq]
    | unsub m =>
      rw [specSubscribers_append_unsub]
      simp only [EmitterState.step, EventEmitter.unsubscribe, ih]
      exact eraseP_eq_filter_of_sorted m _ (specSubscribers_sorted ops 1)

/-- C1: after any sequence of `on` (subscribe) and `_unsubscribe` calls,
`emit(e, payload)` invokes exactly the callbacks whose subscriptions for
event name `e` (compared by string equality) are registered at that
moment — as computed by the spec-side `specSubscribers` — each exactly
once, passing `payload`, and in the order the subscriptions were added
(their ids are strictly increasing, so each registered subscription
contributes a single invocation and the delivery order is the
subscription order). -/
theorem emit_invokes_current_subscribers_in_order {α : Type} (ops : List EmitterOp)
    (e : String) (payload : α) :
    EventEmitter.emitTrace (EmitterState.run ops) e payload
      = ((specSubscribers ops 1).filter (fun s => s.event == e)).map
          (fun s => (s.callback, payload))
    ∧ ((specSubscribers ops 1).filter (fun s => s.event == e)).Pairwise
        (fun a b => a.id < b.id) := by
  constructor
  · unfold EventEmitter.emitTrace
    rw [run_subscribers_eq_spec]
  · exact List.Pairwise.filter _ (specSubscribers_sorted ops 1)

/-- C2 (code evaluation): the handle returned by `on` does not have the
fresh subscription id bound — `bind(this)` binds the receiver only — so
invoking the handle's `unsubscribe` with no arguments removes nothing:
after `on("completed", 7)` on a fresh emitter the subscription (id 1) is
still registered and `emit("completed", 0)` still invokes callback 7. -/
theorem handle_unsubscribe_removes_nothing :
    (EventEmitter.onWithHandle EmitterState.init "completed" 7).2 = none
    ∧ EventEmitter.unsubscribe (EventEmitter.onWithHandle EmitterState.init "completed" 7).1
        (EventEmitter.onWithHandle EmitterState.init "completed" 7).2
      = (EventEmitter.onWithHandle EmitterState.init "completed" 7).1
    ∧ (EventEmitter.onWithHandle EmitterState.init "completed" 7).1.subscribers
      = [⟨1, "completed", 7⟩]
    ∧ EventEmitter.emitTrace
        (EventEmitter.unsubscribe (EventEmitter.onWithHandle EmitterState.init "completed" 7).1
          (EventEmitter.onWithHandle EmitterState.init "completed" 7).2)
        "completed" (0 : Nat)
      = [(7, 0)] := by
  refine ⟨rfl, rfl, rfl, ?_⟩
  simp [EventEmitter.onWithHandle, EventEmitter.on, EventEmitter.unsubscribe,
    EventEmitter.emitTrace, EmitterState.init]

/-! ## Theorems: entity layer (C3, C4, C9) -/

/-- C3: `update(newDescription)` sends a PUT whose body holds only the
`description` field to the store path addressed by the entity's id; when
the remote call succeeds the local description becomes `newDescription`
(all other fields kept by the record update); when it fails the error
propagates and the entity is exactly as before. -/
theorem update_only_description_success_commits_failure_propagates
    (store : Request → Except RestError Json) (t : TaskEntity) (n : Nat)
    (newDesc : String) (h : t.id = some n) :
    (RestTaskModel.updateRequest t newDesc).method = .PUT
    ∧ (RestTaskModel.updateRequest t newDesc).path
        = "task/" ++ encodeURIComponent (Nat.repr n)
    ∧ (RestTaskModel.updateRequest t newDesc).body
        = some (.obj [("description", .str newDesc)])
    ∧ (∀ j, store (RestTaskModel.updateRequest t newDesc) = .ok j →
        RestTaskModel.update store t newDesc = ({ t with description := newDesc }, .ok ()))
    ∧ (∀ e, store (RestTaskModel.updateRequest t newDesc) = .error e →
        RestTaskModel.update store t newDesc = (t, .error e)) := by
  refine ⟨rfl, ?_, rfl, ?_, ?_⟩
  · simp [RestTaskModel.updateRequest, TaskEntity.idString, h]
  · intro j hj
    simp [RestTaskModel.update, hj]
  · intro e he
    simp [RestTaskModel.update, he]

theorem update_only_description_witness :
    RestTaskModel.update storeOkJson sampleTask "b"
      = ({ sampleTask with description := "b" }, .ok ())
    ∧ RestTaskModel.update storeFailJson sampleTask "b"
      = (sampleTask, .error ⟨500, "Operation failed"⟩) :=
  ⟨(update_only_description_success_commits_failure_propagates storeOkJson sampleTask 1 "b"
      rfl).2.2.2.1 .null rfl,
   (update_only_description_success_commits_failure_propagates storeFailJson sampleTask 1 "b"
      rfl).2.2.2.2 ⟨500, "Operation failed"⟩ rfl⟩

/-- C4: for an entity with no id, `create()` on success overwrites the
local id and timestamp with the response's values (`this.id = dto.id`,
`this.timestamp = Date.parse(dto.timestamp)`); on failure the error
propagates uncaught and the entity still has no id. -/
theorem create_success_overwrites_failure_leaves_no_id
    (store : Request → Except RestError CreateResponse) (t : TaskEntity)
    (h : t.id = none) :
    (∀ dto, store (RestTaskModel.createRequest t) = .ok dto →
        RestTaskModel.create store t
          = ({ t with id := dto.id, timestamp := .parsedMs dto.timestamp }, .ok ()))
    ∧ (∀ e, store (RestTaskModel.createRequest t) = .error e →
        RestTaskModel.create store t = (t, .error e)
        ∧ (RestTaskModel.create store t).1.id = none) := by
  constructor
  · intro dto hdto
    simp [RestTaskModel.create, hdto]
  · intro e he
    refine ⟨by simp [RestTaskModel.create, he], ?_⟩
    simp [RestTaskModel.create, he, h]

theorem create_success_overwrites_witness :
    RestTaskModel.create storeCreate5 sampleNewTask
      = ({ sampleNewTask with
            id := some 5, timestamp := .parsedMs "2024-01-01T00:00:00Z" }, .ok ())
    ∧ RestTaskModel.create storeCreateFail sampleNewTask
      = (sampleNewTask, .error ⟨500, "Operation failed"⟩)
    ∧ (RestTaskModel.create storeCreateFail sampleNewTask).1.id = none :=
  ⟨(create_success_overwrites_failure_leaves_no_id storeCreate5 sampleNewTask rfl).1
      ⟨some 5, "2024-01-01T00:00:00Z"⟩ rfl,
   ((create_success_overwrites_failure_leaves_no_id storeCreateFail sampleNewTask rfl).2
      ⟨500, "Operation failed"⟩ rfl).1,
   ((create_success_overwrites_failure_leaves_no_id storeCreateFail sampleNewTask rfl).2
      ⟨500, "Operation failed"⟩ rfl).2⟩

theorem update_preserves_id (store : Request → Except RestError Json) (t : TaskEntity)
    (d : String) : (RestTaskModel.update store t d).1.id = t.id := by
  unfold RestTaskModel.update
  cases store (RestTaskModel.updateRequest t d) <;> rfl

theorem delete_preserves_entity (store : Request → Except RestError Json) (t : TaskEntity) :
    (RestTaskModel.delete store t).1 = t := by
  unfold RestTaskModel.delete
  cases store (RestTaskModel.deleteRequest t) <;> rfl

theorem save_preserves_id (store : Request → Except RestError Json) (c : TaskComponent) :
    (TaskComponent.save store c).1.model.id = c.model.id := by
  unfold TaskComponent.save
  cases c.editPanel with
  | none => rfl
  | some panel =>
    by_cases h : jsTrim panel.inputValue = ""
    · simp [h, TaskComponent.hideEditField, TaskComponent.updateLabel]
    · simp [h, TaskComponent.hideEditField, TaskComponent.updateLabel, update_preserves_id]

/-- C9: once an id is assigned, `update()`, `delete()`, `toDto()` (a pure
export reading `this.id`) and every component transition (`edit`, `save`,
`cancel`, `complete`) leave it unchanged. -/
theorem id_immutable_after_assignment (storeJ : Request → Except RestError Json)
    (t : TaskEntity) (c : TaskComponent) (n : Nat) (d : String)
    (ht : t.id = some n) (hc : c.model.id = some n) :
    (RestTaskModel.update storeJ t d).1.id = some n
    ∧ (RestTaskModel.delete storeJ t).1.id = some n
    ∧ Json.lookupField (RestTaskModel.toDto t) "id" = some (.num n)
    ∧ (TaskComponent.edit c).model.id = some n
    ∧ (TaskComponent.save storeJ c).1.model.id = some n
    ∧ (TaskComponent.cancel c).model.id = some n
    ∧ (TaskComponent.complete c).1.model.id = some n := by
  refine ⟨?_, ?_, ?_, ?_, ?_, ?_, ?_⟩
  · rw [update_preserves_id]; exact ht
  · rw [delete_preserves_entity]; exact ht
  · simp [RestTaskModel.toDto, Json.lookupField, TaskEntity.idJs, ht]
  · simpa [TaskComponent.edit] using hc
  · rw [save_preserves_id]; exact hc
  · simpa [TaskComponent.cancel, TaskComponent.hideEditField] using hc
  · simpa [TaskComponent.complete] using hc

theorem id_immutable_witness :
    (RestTaskModel.update storeFailJson sampleTask "b").1.id = some 1
    ∧ (RestTaskModel.delete storeOkJson sampleTask).1.id = some 1
    ∧ (TaskComponent.save storeOkJson sampleEditingWs).1.model.id = some 1 :=
  ⟨(id_immutable_after_assignment storeFailJson sampleTask (.init sampleTask) 1 "b"
      rfl rfl).1,
   (id_immutable_after_assignment storeOkJson sampleTask (.init sampleTask) 1 "b"
      rfl rfl).2.1,
   (id_immutable_after_assignment storeOkJson sampleTask sampleEditingWs 1 "b"
      rfl rfl).2.2.2.2.1⟩

/-! ## Theorems: TaskComponent save (C5, C10) -/

/-- C5: with the component in the Editing state and an input that trims
to the empty string, `save()` performs no remote call, leaves the
entity untouched, and still transitions the component back to Viewing. -/
theorem save_whitespace_no_call_back_to_viewing
    (store : Request → Except RestError Json) (c : TaskComponent) (p : EditPanel)
    (hp : c.editPanel = some p) (hw : jsTrim p.inputValue = "") :
    (TaskComponent.save store c).2 = []
    ∧ (TaskComponent.save store c).1.model = c.model
    ∧ (TaskComponent.save store c).1.isViewing = true := by
  refine ⟨?_, ?_, ?_⟩ <;>
    simp [TaskComponent.save, hp, hw, TaskComponent.hideEditField,
      TaskComponent.updateLabel, TaskComponent.isViewing]

theorem save_whitespace_witness :
    (TaskComponent.save storeOkJson sampleEditingWs).2 = []
    ∧ (TaskComponent.save storeOkJson sampleEditingWs).1.model = sampleEditingWs.model
    ∧ (TaskComponent.save storeOkJson sampleEditingWs).1.isViewing = true :=
  save_whitespace_no_call_back_to_viewing storeOkJson sampleEditingWs ⟨false, "   "⟩
    rfl (by decide)

/-- C10: on a component whose `edit()` has never run (`_edit` is null),
`save()` is a complete no-op: no request, no state change at all. -/
theorem save_without_panel_is_noop (store : Request → Except RestError Json)
    (c : TaskComponent) (h : c.editPanel = none) :
    TaskComponent.save store c = (c, []) := by
  simp [TaskComponent.save, h]

theorem save_without_panel_witness :
    TaskComponent.save storeOkJson (TaskComponent.init sampleTask)
      = (TaskComponent.init sampleTask, []) :=
  save_without_panel_is_noop storeOkJson (TaskComponent.init sampleTask) rfl

/-! ## Theorems: response classification (C6) -/

/-- C6 counterexample: completed responses on which the handler throws
before `resolve`/`reject` runs, so the promise is never settled —
refuting "for every completed HTTP response, the RestClient settles its
promise exactly once": a 200 response with no `Content-type` header
(`hdr.substr` on `null`), a 200 `application/json` response with an
empty body, and a 500 `application/json` response with a non-JSON body
(`JSON.parse` throws in both parsing branches). -/
theorem missing_header_response_never_settles :
    handleJsonResponse ⟨200, none, "{}"⟩ = none
    ∧ handleJsonResponse ⟨200, some "application/json", ""⟩ = none
    ∧ handleJsonResponse ⟨500, some "application/json", "oops"⟩ = none :=
  ⟨rfl, rfl, rfl⟩

/-- C6 amended: a completed response carrying a `Content-type` header
settles at most once, exactly as classified by `settlementSpec`: 200/201
with a JSON-compatible (prefix-matched) content type resolves with the
parsed body when `JSON.parse` accepts it (and never settles when the
parse throws); 200/201 with a non-JSON content type rejects with
"Not a JSON response", status and raw text; any other status rejects
with the status and either the parsed JSON body (content type exactly
JSON and the body parses — otherwise the parse throws and nothing
settles) or the raw text for any other content type. -/
theorem with_header_settlement_classification (status : Nat) (hdr text : String) :
    handleJsonResponse ⟨status, some hdr, text⟩ = settlementSpec status hdr text := by
  unfold handleJsonResponse settlementSpec
  by_cases h2 : status = 200 ∨ status = 201
  · have hb : (status == 200 || status == 201) = true := by
      rcases h2 with rfl | rfl <;> simp
    simp only [hb, if_pos h2, if_true]
  · push_neg at h2
    have hb : (status == 200 || status == 201) = false := by
      simp [h2.1, h2.2]
    simp only [hb, Bool.false_eq_true, if_false, if_neg (not_or.mpr h2)]
    by_cases hj : hdr = "application/json" ∨ hdr = "text/json"
    · have hcb : (hdr == "application/json" || hdr == "text/json") = true := by
        rcases hj with rfl | rfl <;> simp
      simp only [hcb, if_pos hj, if_true]
    · have hcb : (hdr == "application/json" || hdr == "text/json") = false := by
        push_neg at hj
        simp [hj.1, hj.2]
      simp only [hcb, Bool.false_eq_true, if_false, if_neg hj]

/-! ## Theorems: URL building (C7) -/

theorem dropWhile_dropWhile_of_imp {α : Type} (p q : α → Bool)
    (h : ∀ x, q x = true → p x = true) :
    ∀ l : List α, (l.dropWhile q).dropWhile p = l.dropWhile p := by
  intro l
  induction l with
  | nil => rfl
  | cons a t ih =>
    by_cases hq : q a = true
    · rw [List.dropWhile_cons, if_pos hq, ih, List.dropWhile_cons, if_pos (h a hq)]
    · rw [List.dropWhile_cons, if_neg hq]

theorem rdropWhile_rdropWhile_of_imp {α : Type} (p q : α → Bool)
    (h : ∀ x, q x = true → p x = true) (l : List α) :
    (l.rdropWhile q).rdropWhile p = l.rdropWhile p := by
  unfold List.rdropWhile
  rw [List.reverse_reverse, dropWhile_dropWhile_of_imp p q h]

theorem rdropWhile_dropWhile_comm {α : Type} (p q : α → Bool) :
    ∀ l : List α, (l.rdropWhile p).dropWhile q = (l.dropWhile q).rdropWhile p := by
  intro l
  induction l using List.reverseRecOn with
  | nil => rfl
  | append_singleton xs x ih =>
    by_cases hp : p x = true
    · rw [List.rdropWhile_concat_pos p xs x hp, ih, List.dropWhile_append]
      by_cases he : (xs.dropWhile q).isEmpty = true
      · rw [if_pos he]
        rw [List.isEmpty_iff] at he
        rw [he]
        by_cases hq : q x = true
        · rw [List.dropWhile_cons, if_pos hq]
          rfl
        · rw [List.dropWhile_cons, if_neg hq]
          rw [show ([x] : List α) = [] ++ [x] from rfl, List.rdropWhile_concat_pos p [] x hp]
      · rw [if_neg he, List.rdropWhile_concat_pos p _ x hp]
    · rw [List.rdropWhile_concat_neg p xs x hp, List.dropWhile_append]
      by_cases he : (xs.dropWhile q).isEmpty = true
      · rw [if_pos he]
        by_cases hq : q x = true
        · rw [List.dropWhile_cons, if_pos hq, List.dropWhile_nil]
          rfl
        · rw [List.dropWhile_cons, if_neg hq]
          rw [show ([x] : List α) = [] ++ [x] from rfl, List.rdropWhile_concat_neg p [] x hp]
      · rw [if_neg he, List.rdropWhile_concat_neg p _ x hp]

/-- `/` counts as removable for both `endRemoveAndTrim` and
`startRemoveAndTrim` with delimiter `/`. -/
theorem isJsSpace_imp_slashy :
    ∀ x : Char, isJsSpace x = true → (isJsSpace x || x == '/') = true := by
  intro x h
  simp [h]

/-- Normal form of the base-URL pipeline
`endRemoveAndTrim((baseUrl || '').trim(), '/')`. -/
theorem base_pipeline_eq (l : List Char) :
    endRemoveAndTrim (jsTrimL l) '/'
      = (l.dropWhile isJsSpace).rdropWhile (fun x => isJsSpace x || x == '/') := by
  unfold endRemoveAndTrim jsTrimL trimLeftL trimRightL
  rw [rdropWhile_dropWhile_comm isJsSpace isJsSpace l,
    rdropWhile_rdropWhile_of_imp _ isJsSpace isJsSpace_imp_slashy]

/-- Normal form of the path pipeline
`startRemoveAndTrim(path.trim(), '/')`. -/
theorem path_pipeline_eq (l : List Char) :
    startRemoveAndTrim (jsTrimL l) '/'
      = (l.dropWhile (fun x => isJsSpace x || x == '/')).rdropWhile isJsSpace := by
  unfold startRemoveAndTrim jsTrimL trimLeftL trimRightL
  rw [rdropWhile_dropWhile_comm isJsSpace isJsSpace l,
    rdropWhile_dropWhile_comm isJsSpace _ (List.dropWhile isJsSpace l),
    dropWhile_dropWhile_of_imp _ isJsSpace isJsSpace_imp_slashy]

theorem base_pipeline_concat_slash (l : List Char) :
    endRemoveAndTrim (jsTrimL (l ++ ['/'])) '/' = endRemoveAndTrim (jsTrimL l) '/' := by
  rw [base_pipeline_eq, base_pipeline_eq, List.dropWhile_append]
  by_cases he : (l.dropWhile isJsSpace).isEmpty = true
  · rw [if_pos he]
    rw [List.isEmpty_iff] at he
    rw [he]
    decide
  · rw [if_neg he, List.rdropWhile_concat_pos _ _ _ (by decide)]

theorem path_pipeline_cons_slash (l : List Char) :
    startRemoveAndTrim (jsTrimL ('/' :: l)) '/' = startRemoveAndTrim (jsTrimL l) '/' := by
  rw [path_pipeline_eq, path_pipeline_eq, List.dropWhile_cons, if_pos (by decide)]

/-- C7 counterexample: the claim's example fails — `mkUrl` strips only
the base's trailing delimiters and the path's leading ones, so a leading
`/` on the base survives: `mkUrl("/api/", "/task/1")` is
`"/api/task/1"` while `mkUrl("api", "task/1")` is `"api/task/1"`, and
the two joined paths are different. -/
theorem mkUrl_leading_slash_not_equal :
    mkUrl "/api/" "/task/1" = "/api/task/1"
    ∧ mkUrl "api" "task/1" = "api/task/1"
    ∧ mkUrl "/api/" "/task/1" ≠ mkUrl "api" "task/1" :=
  ⟨by decide, by decide, by decide⟩

/-- C7 amended: `mkUrl` joins base and path with exactly one `/`
separator regardless of trailing `/` characters on the base and leading
`/` characters on the path — appending a `/` to the base or prepending
one to the path never changes the result; the base's leading delimiters,
however, are preserved, so `mkUrl("/api/", "/task/1") = "/api/task/1"`
and `mkUrl("api", "task/1") = "api/task/1"` differ exactly by the
preserved leading slash. -/
theorem mkUrl_single_separator_insensitive (b p : String) :
    mkUrl (b ++ "/") p = mkUrl b p ∧ mkUrl b ("/" ++ p) = mkUrl b p := by
  constructor
  · unfold mkUrl
    have hd : (b ++ "/").data = b.data ++ ['/'] := by
      rw [String.data_append]
    rw [hd, base_pipeline_concat_slash]
  · unfold mkUrl
    have hd : ("/" ++ p).data = '/' :: p.data := by
      rw [String.data_append]
      rfl
    rw [hd, path_pipeline_cons_slash]

/-! ## Theorems: task creation body (C8) -/

/-- C8 counterexample: `addTask` constructs the model with
`new RestTaskModel(undefined, desc, client)`; `toDto()` therefore holds
`id: undefined`, and `JSON.stringify` omits fields whose value is
`undefined`, so the serialized creation body has no `id` field at all —
it is not present and equal to `null` as claimed. -/
theorem addTask_post_body_omits_id :
    addTask storeCreate5 "x" 0
      = some (RestTaskModel.create storeCreate5 (TaskModel.new none "x" 0))
    ∧ serializedBody (RestTaskModel.createRequest (TaskModel.new none "x" 0))
      = some (.obj [("description", .str "x"), ("timestamp", .str (Json.isoOf 0))])
    ∧ Json.lookupField
        (.obj [("description", .str "x"), ("timestamp", .str (Json.isoOf 0))]) "id"
      = none :=
  ⟨rfl, rfl, rfl⟩

/-- C8 amended: every creation triggered through `addTask` with a
non-blank input issues a POST to the task path whose serialized body
contains exactly the fields `{description, timestamp}`; the `id` field,
being `undefined` on a not-yet-persisted entity, is omitted from the
serialized body by `JSON.stringify`. -/
theorem addTask_posts_description_timestamp_only
    (store : Request → Except RestError CreateResponse) (inputValue : String) (now : Nat)
    (h : jsTrim inputValue ≠ "") :
    addTask store inputValue now
      = some (RestTaskModel.create store (TaskModel.new none (jsTrim inputValue) now))
    ∧ (RestTaskModel.createRequest (TaskModel.new none (jsTrim inputValue) now)).method
      = .POST
    ∧ (RestTaskModel.createRequest (TaskModel.new none (jsTrim inputValue) now)).path
      = "task"
    ∧ serializedBody (RestTaskModel.createRequest (TaskModel.new none (jsTrim inputValue) now))
      = some (.obj [("description", .str (jsTrim inputValue)),
                    ("timestamp", .str (Json.isoOf now))]) := by
  refine ⟨?_, rfl, rfl, rfl⟩
  simp [addTask, h]

theorem addTask_posts_witness :
    addTask storeCreate5 " y " 1
      = some (RestTaskModel.create storeCreate5 (TaskModel.new none "y" 1))
    ∧ serializedBody (RestTaskModel.createRequest (TaskModel.new none "y" 1))
      = some (.obj [("description", .str "y"), ("timestamp", .str (Json.isoOf 1))]) :=
  ⟨(addTask_posts_description_timestamp_only storeCreate5 " y " 1 (by decide)).1,
   (addTask_posts_description_timestamp_only storeCreate5 " y " 1 (by decide)).2.2.2⟩
